import Mathlib

/-!
Shallow embedding of `files/cloudfront.py` (ansible-role-s3-website-hosting):
an Ansible module that creates, updates and deletes AWS CloudFront resources
(distributions, streaming distributions, invalidations, origin-access
identities).

The module's effects are modelled by an explicit trace of events: every boto3
client call is recorded as an `Event.api` with the SDK method name and the
keyword parameters the Python code passes, and every `time.sleep` as an
`Event.sleep`.  The remote world (file system, `json` parser, API responses)
is a pure environment `Env`.  `module.fail_json` aborts the invocation with a
`ModuleFailure.failJson` message; an unhandled Python exception (TypeError,
KeyError, NameError) aborts with `ModuleFailure.pyError`.
-/

namespace Cloudfront

/-- JSON values as decoded by Python's `json` module. -/
inductive JsonVal where
  | null
  | bool (b : Bool)
  | num (n : Int)
  | str (s : String)
  | arr (xs : List JsonVal)
  | obj (fields : List (String × JsonVal))
deriving Repr

mutual

/-- Python `==` / `cmp(_, _) == 0` on decoded JSON values. -/
def jsonBeq : JsonVal → JsonVal → Bool
  | .null, .null => true
  | .bool a, .bool b => a == b
  | .num a, .num b => a == b
  | .str a, .str b => a == b
  | .arr xs, .arr ys => jsonBeqList xs ys
  | .obj xs, .obj ys => jsonBeqFields xs ys
  | _, _ => false

def jsonBeqList : List JsonVal → List JsonVal → Bool
  | [], [] => true
  | x :: xs, y :: ys => jsonBeq x y && jsonBeqList xs ys
  | _, _ => false

def jsonBeqFields : List (String × JsonVal) → List (String × JsonVal) → Bool
  | [], [] => true
  | (k1, v1) :: xs, (k2, v2) :: ys => k1 == k2 && jsonBeq v1 v2 && jsonBeqFields xs ys
  | _, _ => false

end

/-- How an invocation can abort: `module.fail_json(msg=...)`, or an unhandled
Python exception. -/
inductive ModuleFailure where
  | failJson (msg : String)
  | pyError (msg : String)
deriving Repr, DecidableEq

/-- Observable effects: a boto3 client call (SDK method name plus keyword
parameters in the order the Python code inserts them), or `time.sleep`. -/
inductive Event where
  | api (method : String) (params : List (String × JsonVal))
  | sleep (secs : Nat)
deriving Repr

/-- The result of running a piece of the module: either a value or an abort,
together with the trace of events issued (the trace survives an abort). -/
abbrev M (α : Type) := Except ModuleFailure α × List Event

/-- Prepend already-issued events to a computation's trace. -/
def withTrace {α : Type} (t : List Event) (m : M α) : M α := (m.1, t ++ m.2)

/-- The external world: the local file system, the JSON parser, and the
remote CloudFront control plane.  `apiResult method params` is the decoded
response of a one-shot client call; `pollResult i method params` is the
response observed by the i-th iteration of the status-polling loop. -/
structure Env where
  readFile : String → Except String String
  jsonParse : String → Except String JsonVal
  apiResult : String → List (String × JsonVal) → JsonVal
  pollResult : Nat → String → List (String × JsonVal) → JsonVal

/-- The Ansible parameters of one invocation (`module.params`). -/
structure ModuleParams where
  type : String
  policy : Option String
  resource_id : Option String
  state : String
  wait_for_deployed : Bool

/-- The `temp_object` dict built by each `get_existing_*` helper:
keys `Config`, `ETag`, `Id` and (for distributions) `DomainName`. -/
structure Resource where
  Config : JsonVal
  ETag : JsonVal
  Id : JsonVal
  DomainName : Option JsonVal
deriving Repr

/-- Python truthiness of a decoded JSON value. -/
def pyTruthy : JsonVal → Bool
  | .null => false
  | .bool b => b
  | .num n => n != 0
  | .str s => s != ""
  | .arr xs => !xs.isEmpty
  | .obj fs => !fs.isEmpty

/-- Python truthiness of an optional string parameter (`None` and `""` are
falsy). -/
def optTruthy : Option String → Bool
  | none => false
  | some s => s != ""

/-- An optional string parameter as the value Python would pass to boto3. -/
def optStrVal : Option String → JsonVal
  | none => .null
  | some s => .str s

/-- Python subscripting `v[key]`: KeyError on a missing key, TypeError on a
non-dict. -/
def pyIndex : JsonVal → String → Except ModuleFailure JsonVal
  | .obj fields, key =>
    match List.lookup key fields with
    | some v => .ok v
    | none => .error (.pyError ("KeyError: " ++ key))
  | _, key => .error (.pyError ("TypeError: not subscriptable: " ++ key))

/-- Python `key in v`: key membership for dicts, element membership for
lists, substring for strings, TypeError otherwise (in particular for
`None`). -/
def pyContains (key : String) : JsonVal → Except ModuleFailure Bool
  | .obj fields => .ok (fields.any (fun f => f.1 == key))
  | .arr xs => .ok (xs.any (fun v => jsonBeq v (.str key)))
  | .str s => .ok (decide (List.IsInfix key.data s.data))
  | _ => .error (.pyError "TypeError: argument is not iterable")

/-- Python iteration `for x in v`. -/
def pyIter : JsonVal → Except ModuleFailure (List JsonVal)
  | .arr xs => .ok xs
  | .obj fields => .ok (fields.map (fun f => JsonVal.str f.1))
  | .str s => .ok (s.data.map (fun c => JsonVal.str (String.mk [c])))
  | _ => .error (.pyError "TypeError: not iterable")

/-- Python dict item assignment `v[key] = x`. -/
def pySet : JsonVal → String → JsonVal → Except ModuleFailure JsonVal
  | .obj fields, key, v => .ok (.obj (setField fields key v))
  | _, _, _ => .error (.pyError "TypeError: does not support item assignment")
where
  setField : List (String × JsonVal) → String → JsonVal → List (String × JsonVal)
  | [], k, v => [(k, v)]
  | (k2, v2) :: rest, k, v =>
      if k2 == k then (k, v) :: rest else (k2, v2) :: setField rest k v

/-- `creation_setup`: message on an invalidation whose config differs. -/
def msgInvalidationUpdate : String :=
  "AWS does not support updating invalidation configs, please create a new invalidation with your new config and use a new caller reference id instead"

/-- `creation` / `update`: message on a poll timeout. -/
def msgTimeout : String :=
  "Timed out waiting for the resource to finish deploying, please check the AWS console for the latest status."

/-! ## The `get_existing_*` helpers -/

/-- Inner loop of `get_existing_distributions`: one `get_distribution_config`
call and one `temp_object` per listed distribution. -/
def distLoop (env : Env) : List JsonVal → M (List Resource)
  | [] => (.ok [], [])
  | dist :: rest =>
    match pyIndex dist "Id" with
    | .error e => (.error e, [])
    | .ok distId =>
      match pyIndex (env.apiResult "get_distribution_config" [("Id", distId)]) "DistributionConfig" with
      | .error e => (.error e, [Event.api "get_distribution_config" [("Id", distId)]])
      | .ok cfg =>
        match pyIndex (env.apiResult "get_distribution_config" [("Id", distId)]) "ETag" with
        | .error e => (.error e, [Event.api "get_distribution_config" [("Id", distId)]])
        | .ok etagv =>
          match pyIndex dist "DomainName" with
          | .error e => (.error e, [Event.api "get_distribution_config" [("Id", distId)]])
          | .ok dn =>
            withTrace [Event.api "get_distribution_config" [("Id", distId)]]
              (match distLoop env rest with
               | (.error e, t) => (.error e, t)
               | (.ok items, t) => (.ok (⟨cfg, etagv, distId, some dn⟩ :: items), t))

/-- `get_existing_distributions(client, module)`. -/
def get_existing_distributions (env : Env) (_p : ModuleParams) : M (List Resource) :=
  match pyIndex (env.apiResult "list_distributions" []) "DistributionList" with
  | .error e => (.error e, [Event.api "list_distributions" []])
  | .ok dlist =>
    match pyContains "Items" dlist with
    | .error e => (.error e, [Event.api "list_distributions" []])
    | .ok false => (.ok [], [Event.api "list_distributions" []])
    | .ok true =>
      match pyIndex dlist "Items" with
      | .error e => (.error e, [Event.api "list_distributions" []])
      | .ok itemsv =>
        match pyIter itemsv with
        | .error e => (.error e, [Event.api "list_distributions" []])
        | .ok items => withTrace [Event.api "list_distributions" []] (distLoop env items)

/-- Inner loop of `get_existing_origin_access_id`. -/
def originLoop (env : Env) : List JsonVal → M (List Resource)
  | [] => (.ok [], [])
  | origin :: rest =>
    match pyIndex origin "Id" with
    | .error e => (.error e, [])
    | .ok originId =>
      match pyIndex (env.apiResult "get_cloud_front_origin_access_identity_config" [("Id", originId)]) "CloudFrontOriginAccessIdentityConfig" with
      | .error e => (.error e, [Event.api "get_cloud_front_origin_access_identity_config" [("Id", originId)]])
      | .ok cfg =>
        match pyIndex (env.apiResult "get_cloud_front_origin_access_identity_config" [("Id", originId)]) "ETag" with
        | .error e => (.error e, [Event.api "get_cloud_front_origin_access_identity_config" [("Id", originId)]])
        | .ok etagv =>
          withTrace [Event.api "get_cloud_front_origin_access_identity_config" [("Id", originId)]]
            (match originLoop env rest with
             | (.error e, t) => (.error e, t)
             | (.ok items, t) => (.ok (⟨cfg, etagv, originId, none⟩ :: items), t))

/-- `get_existing_origin_access_id(client, module)`. -/
def get_existing_origin_access_id (env : Env) (_p : ModuleParams) : M (List Resource) :=
  match pyIndex (env.apiResult "list_cloud_front_origin_access_identities" []) "CloudFrontOriginAccessIdentityList" with
  | .error e => (.error e, [Event.api "list_cloud_front_origin_access_identities" []])
  | .ok olist =>
    match pyContains "Items" olist with
    | .error e => (.error e, [Event.api "list_cloud_front_origin_access_identities" []])
    | .ok false => (.ok [], [Event.api "list_cloud_front_origin_access_identities" []])
    | .ok true =>
      match pyIndex olist "Items" with
      | .error e => (.error e, [Event.api "list_cloud_front_origin_access_identities" []])
      | .ok itemsv =>
        match pyIter itemsv with
        | .error e => (.error e, [Event.api "list_cloud_front_origin_access_identities" []])
        | .ok items => withTrace [Event.api "list_cloud_front_origin_access_identities" []] (originLoop env items)

/-- Inner loop of `get_existing_invalidations`; the `temp_object` stores the
`InvalidationBatch` as `Config` and an empty string as `ETag`. -/
def invalidationLoop (env : Env) (distribution_id : JsonVal) : List JsonVal → M (List Resource)
  | [] => (.ok [], [])
  | inv :: rest =>
    match pyIndex inv "Id" with
    | .error e => (.error e, [])
    | .ok invId =>
      match pyIndex (env.apiResult "get_invalidation" [("DistributionId", distribution_id), ("Id", invId)]) "Invalidation" with
      | .error e => (.error e, [Event.api "get_invalidation" [("DistributionId", distribution_id), ("Id", invId)]])
      | .ok invv =>
        match pyIndex invv "InvalidationBatch" with
        | .error e => (.error e, [Event.api "get_invalidation" [("DistributionId", distribution_id), ("Id", invId)]])
        | .ok cfg =>
          withTrace [Event.api "get_invalidation" [("DistributionId", distribution_id), ("Id", invId)]]
            (match invalidationLoop env distribution_id rest with
             | (.error e, t) => (.error e, t)
             | (.ok items, t) => (.ok (⟨cfg, .str "", invId, none⟩ :: items), t))

/-- `get_existing_invalidations(client, module)`: fails when `resource_id`
is missing, otherwise lists the distribution's invalidations. -/
def get_existing_invalidations (env : Env) (p : ModuleParams) : M (List Resource) :=
  if !(optTruthy p.resource_id) then
    (.error (.failJson "distribution_id is required for invalidations"), [])
  else
    match pyIndex (env.apiResult "list_invalidations" [("DistributionId", optStrVal p.resource_id)]) "InvalidationList" with
    | .error e => (.error e, [Event.api "list_invalidations" [("DistributionId", optStrVal p.resource_id)]])
    | .ok ilist =>
      match pyContains "Items" ilist with
      | .error e => (.error e, [Event.api "list_invalidations" [("DistributionId", optStrVal p.resource_id)]])
      | .ok false => (.ok [], [Event.api "list_invalidations" [("DistributionId", optStrVal p.resource_id)]])
      | .ok true =>
        match pyIndex ilist "Items" with
        | .error e => (.error e, [Event.api "list_invalidations" [("DistributionId", optStrVal p.resource_id)]])
        | .ok itemsv =>
          match pyIter itemsv with
          | .error e => (.error e, [Event.api "list_invalidations" [("DistributionId", optStrVal p.resource_id)]])
          | .ok items =>
            withTrace [Event.api "list_invalidations" [("DistributionId", optStrVal p.resource_id)]]
              (invalidationLoop env (optStrVal p.resource_id) items)

/-- Inner loop of `get_existing_streaming_distributions`. -/
def streamingLoop (env : Env) : List JsonVal → M (List Resource)
  | [] => (.ok [], [])
  | dist :: rest =>
    match pyIndex dist "Id" with
    | .error e => (.error e, [])
    | .ok distId =>
      match pyIndex (env.apiResult "get_streaming_distribution_config" [("Id", distId)]) "StreamingDistributionConfig" with
      | .error e => (.error e, [Event.api "get_streaming_distribution_config" [("Id", distId)]])
      | .ok cfg =>
        match pyIndex (env.apiResult "get_streaming_distribution_config" [("Id", distId)]) "ETag" with
        | .error e => (.error e, [Event.api "get_streaming_distribution_config" [("Id", distId)]])
        | .ok etagv =>
          match pyIndex dist "DomainName" with
          | .error e => (.error e, [Event.api "get_streaming_distribution_config" [("Id", distId)]])
          | .ok dn =>
            withTrace [Event.api "get_streaming_distribution_config" [("Id", distId)]]
              (match streamingLoop env rest with
               | (.error e, t) => (.error e, t)
               | (.ok items, t) => (.ok (⟨cfg, etagv, distId, some dn⟩ :: items), t))

/-- `get_existing_streaming_distributions(client, module)`: unlike the other
listings it indexes `['Items']` without an `in` check first. -/
def get_existing_streaming_distributions (env : Env) (_p : ModuleParams) : M (List Resource) :=
  match pyIndex (env.apiResult "list_streaming_distributions" []) "StreamingDistributionList" with
  | .error e => (.error e, [Event.api "list_streaming_distributions" []])
  | .ok dlist =>
    match pyIndex dlist "Items" with
    | .error e => (.error e, [Event.api "list_streaming_distributions" []])
    | .ok itemsv =>
      match pyIter itemsv with
      | .error e => (.error e, [Event.api "list_streaming_distributions" []])
      | .ok items => withTrace [Event.api "list_streaming_distributions" []] (streamingLoop env items)

/-! ## Policy parsing and the dispatch tables -/

/-- Lines 211-225 of `creation_setup`: try to `open` the `policy` parameter
as a file and `json.load` it; on an `OSError`/`IOError` fall back to
`json.loads` of the parameter itself; on a `ValueError` (JSON parse error)
`fail_json` with the error's text. -/
def parsePolicy (env : Env) (s : String) : Except ModuleFailure JsonVal :=
  match env.readFile s with
  | .ok contents =>
    match env.jsonParse contents with
    | .ok v => .ok v
    | .error e => .error (.failJson e)
  | .error _ =>
    match env.jsonParse s with
    | .ok v => .ok v
    | .error e => .error (.failJson e)

/-- `creation_setup`'s `invocations` dict: `type` to `get_config_method`. -/
def get_config_method (t : String) : Option (Env → ModuleParams → M (List Resource)) :=
  if t == "distribution" then some get_existing_distributions
  else if t == "origin_access_id" then some get_existing_origin_access_id
  else if t == "invalidation" then some get_existing_invalidations
  else if t == "streaming" then some get_existing_streaming_distributions
  else none

/-- `return_resource_details`'s `invocations` dict: `type` to the
`get_resource_details` client method name. -/
def details_invocation (t : String) : Option String :=
  if t == "distribution" then some "get_distribution"
  else if t == "origin_access_id" then some "get_cloud_front_origin_access_identity"
  else if t == "invalidation" then some "get_invalidation"
  else if t == "streaming" then some "get_streaming_distribution"
  else none

/-- `creation`'s `invocations` dict: `type` to (`method`, `config_param`,
`result_key`). -/
def creation_invocation (t : String) : Option (String × String × String) :=
  if t == "distribution" then
    some ("create_distribution", "DistributionConfig", "Distribution")
  else if t == "origin_access_id" then
    some ("create_cloud_front_origin_access_identity", "CloudFrontOriginAccessIdentityConfig", "CloudFrontOriginAccessIdentity")
  else if t == "invalidation" then
    some ("create_invalidation", "InvalidationBatch", "Invalidation")
  else if t == "streaming" then
    some ("create_streaming_distribution", "StreamingDistributionConfig", "StreamingDistribution")
  else none

/-- `update`'s `invocations` dict: `type` to (`method`, `config_param`).
Note the source maps `'streaming'` to `client.create_streaming_distribution`
(cloudfront.py line 360), not to an update method. -/
def update_invocation (t : String) : Option (String × String) :=
  if t == "distribution" then
    some ("update_distribution", "DistributionConfig")
  else if t == "origin_access_id" then
    some ("update_cloud_front_origin_access_identity", "CloudFrontOriginAccessIdentityConfig")
  else if t == "streaming" then
    some ("create_streaming_distribution", "StreamingDistributionConfig")
  else none

/-- `wait_for_deployed_status`'s `invocations` dict: `type` to
(`method`, `result_key`). -/
def wait_invocation (t : String) : Option (String × String) :=
  if t == "distribution" then some ("get_distribution", "Distribution")
  else if t == "origin_access_id" then
    some ("get_cloud_front_origin_access_identity", "CloudFrontOriginAccessIdentity")
  else if t == "invalidation" then some ("get_invalidation", "Invalidation")
  else if t == "streaming" then some ("get_streaming_distribution", "StreamingDistribution")
  else none

/-- `disable_distribution`'s `invocations` dict: `type` to
(`method`, `config_param`, `dist_key`). -/
def disable_invocation (t : String) : Option (String × String × String) :=
  if t == "distribution" then
    some ("get_distribution", "DistributionConfig", "Distribution")
  else if t == "streaming" then
    some ("get_streaming_distribution", "StreamingDistributionConfig", "StreamingDistribution")
  else none

/-- `removal_setup`'s `invocations` dict: `type` to (`method`,
`config_param`). -/
def removal_config_invocation (t : String) : Option (String × String) :=
  if t == "distribution" then
    some ("get_distribution_config", "DistributionConfig")
  else if t == "origin_access_id" then
    some ("get_cloud_front_origin_access_identity_config", "CloudFrontOriginAccessIdentityConfig")
  else if t == "streaming" then
    some ("get_streaming_distribution_config", "StreamingDistributionConfig")
  else none

/-- `removal`'s `invocations` dict: `type` to the delete client method. -/
def removal_invocation (t : String) : Option String :=
  if t == "distribution" then some "delete_distribution"
  else if t == "origin_access_id" then some "delete_cloud_front_origin_access_identity"
  else if t == "streaming" then some "delete_streaming_distribution"
  else none

/-! ## The module's operations -/

/-- `wait_for_deployed_status`'s `for x in range(0, max_retries)` loop:
poll the resource, return `True` on `'Deployed'`/`'Completed'`, otherwise
sleep `polling_increment_secs = 30` and retry. -/
def waitLoop (env : Env) (m result_key : String) (args : List (String × JsonVal)) :
    Nat → Nat → M Bool
  | _, 0 => (.ok false, [])
  | x, k + 1 =>
    match pyIndex (env.pollResult x m args) result_key with
    | .error e => (.error e, [Event.api m args])
    | .ok result =>
      match pyIndex result "Status" with
      | .error e => (.error e, [Event.api m args])
      | .ok current_status =>
        if jsonBeq current_status (.str "Deployed") || jsonBeq current_status (.str "Completed") then
          (.ok true, [Event.api m args])
        else
          withTrace [Event.api m args, Event.sleep 30] (waitLoop env m result_key args (x + 1) k)

/-- `wait_for_deployed_status(client, module, max_retries=30, **args)`. -/
def wait_for_deployed_status (env : Env) (p : ModuleParams)
    (args : List (String × JsonVal)) (max_retries : Nat) : M Bool :=
  match wait_invocation p.type with
  | none => (.error (.pyError "KeyError: type"), [])
  | some (m, result_key) => waitLoop env m result_key args 0 max_retries

/-- `return_resource_details(client, module, temp_results)`. -/
def return_resource_details (env : Env) (p : ModuleParams) (temp_results : Resource) : M JsonVal :=
  match details_invocation p.type with
  | none => (.error (.pyError "KeyError: type"), [])
  | some m =>
    if p.type == "invalidation" then
      (.ok (env.apiResult m [("DistributionId", optStrVal p.resource_id), ("Id", temp_results.Id)]),
       [Event.api m [("DistributionId", optStrVal p.resource_id), ("Id", temp_results.Id)]])
    else
      (.ok (env.apiResult m [("Id", temp_results.Id)]),
       [Event.api m [("Id", temp_results.Id)]])

/-- `creation(client, module, policy)`: one create call, optionally followed
by the deployed-status poll, returning `changed = True`. -/
def creation (env : Env) (p : ModuleParams) (policy : JsonVal) : M (Bool × JsonVal) :=
  match creation_invocation p.type with
  | none => (.error (.pyError "KeyError: type"), [])
  | some (m, config_param, result_key) =>
    match
      (if p.type == "invalidation" then
        ([(config_param, policy), ("DistributionId", optStrVal p.resource_id)],
         [("DistributionId", optStrVal p.resource_id)])
       else ([(config_param, policy)], ([] : List (String × JsonVal)))) with
    | (params, args) =>
      if p.wait_for_deployed then
        match pyIndex (env.apiResult m params) result_key with
        | .error e => (.error e, [Event.api m params])
        | .ok r1 =>
          match pyIndex r1 "Id" with
          | .error e => (.error e, [Event.api m params])
          | .ok ridv =>
            match wait_for_deployed_status env p (args ++ [("Id", ridv)]) 30 with
            | (.error e, tw) => (.error e, Event.api m params :: tw)
            | (.ok false, tw) => (.error (.failJson msgTimeout), Event.api m params :: tw)
            | (.ok true, tw) => (.ok (true, env.apiResult m params), Event.api m params :: tw)
      else (.ok (true, env.apiResult m params), [Event.api m params])

/-- `update(client, module, policy, resource_id, etag)`: one call through
`update`'s dispatch table with `Id` and `IfMatch`, optionally followed by the
deployed-status poll, returning `changed = True`. -/
def update (env : Env) (p : ModuleParams) (policy resource_id etagv : JsonVal) : M (Bool × JsonVal) :=
  match update_invocation p.type with
  | none => (.error (.pyError "KeyError: type"), [])
  | some (m, config_param) =>
    if p.wait_for_deployed then
      match wait_for_deployed_status env p [("Id", resource_id)] 30 with
      | (.error e, tw) =>
          (.error e, Event.api m [(config_param, policy), ("Id", resource_id), ("IfMatch", etagv)] :: tw)
      | (.ok false, tw) =>
          (.error (.failJson msgTimeout),
           Event.api m [(config_param, policy), ("Id", resource_id), ("IfMatch", etagv)] :: tw)
      | (.ok true, tw) =>
          (.ok (true, env.apiResult m [(config_param, policy), ("Id", resource_id), ("IfMatch", etagv)]),
           Event.api m [(config_param, policy), ("Id", resource_id), ("IfMatch", etagv)] :: tw)
    else
      (.ok (true, env.apiResult m [(config_param, policy), ("Id", resource_id), ("IfMatch", etagv)]),
       [Event.api m [(config_param, policy), ("Id", resource_id), ("IfMatch", etagv)]])

/-- `creation_setup`'s `for item in existing` loop.  State threaded exactly
as in the source: `changed`, `caller_reference_exists`, and the
possibly-still-unassigned `results`. -/
def creationLoop (env : Env) (p : ModuleParams) (policy caller_reference : JsonVal) :
    List Resource → Bool → Bool → Option JsonVal → M (Bool × Bool × Option JsonVal)
  | [], changed, ex, results => (.ok (changed, ex, results), [])
  | item :: rest, changed, ex, results =>
    match pyIndex item.Config "CallerReference" with
    | .error e => (.error e, [])
    | .ok itemCr =>
      if jsonBeq caller_reference itemCr then
        if jsonBeq policy item.Config then
          match return_resource_details env p item with
          | (.error e, t) => (.error e, t)
          | (.ok details, t) =>
            withTrace t (creationLoop env p policy caller_reference rest changed true (some details))
        else if p.type == "invalidation" then
          (.error (.failJson msgInvalidationUpdate), [])
        else
          match update env p policy item.Id item.ETag with
          | (.error e, t) => (.error e, t)
          | (.ok (ch, res), t) =>
            withTrace t (creationLoop env p policy caller_reference rest ch true (some res))
      else
        creationLoop env p policy caller_reference rest changed ex results

/-- `creation_setup(client, module)`: parse the policy, require
`CallerReference`, list the existing resources of the requested type, run the
idempotence/update loop, and create when no existing resource carries the
policy's caller reference. -/
def creation_setup (env : Env) (p : ModuleParams) : M (Bool × JsonVal) :=
  match
    (if optTruthy p.policy then
      (match p.policy with
       | some s => (parsePolicy env s).map some
       | none => .ok none)
     else .ok (none : Option JsonVal)) with
  | .error e => (.error e, [])
  | .ok policyOpt =>
    match policyOpt with
    | none => (.error (.pyError "TypeError: argument of type NoneType is not iterable"), [])
    | some policy =>
      match pyContains "CallerReference" policy with
      | .error e => (.error e, [])
      | .ok false => (.error (.failJson "CallerReference is required in your policy"), [])
      | .ok true =>
        match pyIndex policy "CallerReference" with
        | .error e => (.error e, [])
        | .ok caller_reference =>
          match get_config_method p.type with
          | none => (.error (.pyError "KeyError: type"), [])
          | some g =>
            match g env p with
            | (.error e, t0) => (.error e, t0)
            | (.ok existing, t0) =>
              match creationLoop env p policy caller_reference existing false false none with
              | (.error e, t1) => (.error e, t0 ++ t1)
              | (.ok (changed, caller_reference_exists, results), t1) =>
                if !caller_reference_exists then
                  match creation env p policy with
                  | (.error e, t2) => (.error e, t0 ++ t1 ++ t2)
                  | (.ok (ch2, res2), t2) => (.ok (ch2, res2), t0 ++ t1 ++ t2)
                else
                  match results with
                  | some r => (.ok (changed, r), t0 ++ t1)
                  | none => (.error (.pyError "NameError: results"), t0 ++ t1)

/-- `disable_distribution(client, module)`: fetch the resource, set
`Enabled = False` through `update` when it is enabled, poll until deployed
(failing on timeout), then fetch and return the refreshed config. -/
def disable_distribution (env : Env) (p : ModuleParams) : M (Bool × JsonVal) :=
  match disable_invocation p.type with
  | none => (.error (.pyError "KeyError: type"), [])
  | some (m, config_param, dist_key) =>
    match pyIndex (env.apiResult m [("Id", optStrVal p.resource_id)]) dist_key with
    | .error e => (.error e, [Event.api m [("Id", optStrVal p.resource_id)]])
    | .ok inner =>
      match pyIndex inner config_param with
      | .error e => (.error e, [Event.api m [("Id", optStrVal p.resource_id)]])
      | .ok cfg =>
        match pyIndex cfg "Enabled" with
        | .error e => (.error e, [Event.api m [("Id", optStrVal p.resource_id)]])
        | .ok enabled =>
          match
            (if pyTruthy enabled then
              match pySet cfg "Enabled" (.bool false) with
              | .error e => ((.error e : Except ModuleFailure Unit), ([] : List Event))
              | .ok new_policy =>
                match pyIndex (env.apiResult m [("Id", optStrVal p.resource_id)]) "ETag" with
                | .error e => (.error e, [])
                | .ok etagv =>
                  match update env p new_policy (optStrVal p.resource_id) etagv with
                  | (.error e, t) => (.error e, t)
                  | (.ok _, t) => (.ok (), t)
             else ((.ok () : Except ModuleFailure Unit), ([] : List Event))) with
          | (.error e, t) => (.error e, Event.api m [("Id", optStrVal p.resource_id)] :: t)
          | (.ok _, t) =>
            match wait_for_deployed_status env p [("Id", optStrVal p.resource_id)] 30 with
            | (.error e, tw) => (.error e, Event.api m [("Id", optStrVal p.resource_id)] :: (t ++ tw))
            | (.ok false, tw) =>
              (.error (.failJson "Timed out disabling the resource, please try again"),
               Event.api m [("Id", optStrVal p.resource_id)] :: (t ++ tw))
            | (.ok true, tw) =>
              (.ok (true, env.apiResult "get_distribution_config" [("Id", optStrVal p.resource_id)]),
               Event.api m [("Id", optStrVal p.resource_id)] ::
                 (t ++ tw ++ [Event.api "get_distribution_config" [("Id", optStrVal p.resource_id)]]))

/-- `removal(client, module, resource_id, etag)`: one delete call, returning
`changed = True`. -/
def removal (env : Env) (p : ModuleParams) (resource_id etagv : JsonVal) : M (Bool × JsonVal) :=
  match removal_invocation p.type with
  | none => (.error (.pyError "KeyError: type"), [])
  | some m =>
    (.ok (true, env.apiResult m [("Id", resource_id), ("IfMatch", etagv)]),
     [Event.api m [("Id", resource_id), ("IfMatch", etagv)]])

/-- `removal_setup(client, module)`: invalidations cannot be removed,
`resource_id` is required, the config is fetched (through
`disable_distribution` when `wait_for_deployed` is set), and the resource is
deleted only when its `Enabled` field is falsy. -/
def removal_setup (env : Env) (p : ModuleParams) : M (Bool × JsonVal) :=
  if p.type == "invalidation" then
    (.error (.failJson "Invalidations cannot be updated or removed"), [])
  else if !(optTruthy p.resource_id) then
    (.error (.failJson "resource_id is requried for removing a resource"), [])
  else
    match
      (if p.wait_for_deployed then
        match disable_distribution env p with
        | (.error e, t) => ((.error e : Except ModuleFailure JsonVal), t)
        | (.ok (_, config), t) => (.ok config, t)
       else
        match removal_config_invocation p.type with
        | none => ((.error (.pyError "KeyError: type") : Except ModuleFailure JsonVal), ([] : List Event))
        | some (m, _) =>
          (.ok (env.apiResult m [("Id", optStrVal p.resource_id)]),
           [Event.api m [("Id", optStrVal p.resource_id)]])) with
    | (.error e, t) => (.error e, t)
    | (.ok config, t) =>
      match removal_config_invocation p.type with
      | none => (.error (.pyError "KeyError: type"), t)
      | some (_, config_param) =>
        match pyIndex config config_param with
        | .error e => (.error e, t)
        | .ok cfg =>
          match pyIndex cfg "Enabled" with
          | .error e => (.error e, t)
          | .ok enabled =>
            if !(pyTruthy enabled) then
              match pyIndex config "ETag" with
              | .error e => (.error e, t)
              | .ok etagv =>
                match removal env p (optStrVal p.resource_id) etagv with
                | (.error e, t2) => (.error e, t ++ t2)
                | (.ok (ch, result), t2) => (.ok (ch, result), t ++ t2)
            else
              (.error (.failJson "Resource must be disabled before you can remove it from AWS"), t)

/-- Python `str.lower()` (ASCII). -/
def pyLower (s : String) : String := String.mk (s.data.map Char.toLower)

/-- `main()` after the connection is set up: dispatch on `state` and
`exit_json` with `(changed, result)`. -/
def runModule (env : Env) (p : ModuleParams) : M (Bool × JsonVal) :=
  if pyLower p.state == "present" then creation_setup env p else removal_setup env p

/-! ## Write-call predicates -/

/-- The SDK methods that create, update or delete a resource. -/
def isWriteMethod (m : String) : Bool :=
  List.isPrefixOf "create_".data m.data || List.isPrefixOf "update_".data m.data ||
    List.isPrefixOf "delete_".data m.data

/-- An event that issues a create, update or delete API call. -/
def isWriteEvent : Event → Bool
  | .api m _ => isWriteMethod m
  | .sleep _ => false

/-- Whether a trace contains a create, update or delete API call. -/
def hasWrite (t : List Event) : Bool := t.any isWriteEvent

/-- The status observed by the i-th poll of the waiting loop. -/
def statusOf (env : Env) (m result_key : String) (args : List (String × JsonVal))
    (i : Nat) : Except ModuleFailure JsonVal :=
  match pyIndex (env.pollResult i m args) result_key with
  | .error e => .error e
  | .ok result => pyIndex result "Status"

/-- Whether the i-th poll observes a terminal `Deployed`/`Completed` status. -/
def deployedAt (env : Env) (m result_key : String) (args : List (String × JsonVal))
    (i : Nat) : Bool :=
  match statusOf env m result_key args i with
  | .ok s => jsonBeq s (.str "Deployed") || jsonBeq s (.str "Completed")
  | .error _ => false

/-- Number of API calls in a trace. -/
def apiCount (t : List Event) : Nat :=
  (t.filter (fun e => match e with | .api _ _ => true | .sleep _ => false)).length

/-! ## Trace lemmas -/

lemma hasWrite_append (a b : List Event) :
    hasWrite (a ++ b) = (hasWrite a || hasWrite b) := by
  simp [hasWrite]

lemma hasWrite_cons (e : Event) (t : List Event) :
    hasWrite (e :: t) = (isWriteEvent e || hasWrite t) := by
  simp [hasWrite]

lemma distLoop_no_write (env : Env) (items : List JsonVal) :
    hasWrite (distLoop env items).2 = false := by
  have hw : isWriteMethod "get_distribution_config" = false := by decide
  induction items with
  | nil => rfl
  | cons dist rest ih =>
    rcases hrec : distLoop env rest with ⟨r, t⟩
    rw [hrec] at ih
    unfold distLoop
    rw [hrec]
    repeat' split
    all_goals simp_all [withTrace, hasWrite, isWriteEvent]

lemma originLoop_no_write (env : Env) (items : List JsonVal) :
    hasWrite (originLoop env items).2 = false := by
  have hw : isWriteMethod "get_cloud_front_origin_access_identity_config" = false := by decide
  induction items with
  | nil => rfl
  | cons origin rest ih =>
    rcases hrec : originLoop env rest with ⟨r, t⟩
    rw [hrec] at ih
    unfold originLoop
    rw [hrec]
    repeat' split
    all_goals simp_all [withTrace, hasWrite, isWriteEvent]

lemma invalidationLoop_no_write (env : Env) (did : JsonVal) (items : List JsonVal) :
    hasWrite (invalidationLoop env did items).2 = false := by
  have hw : isWriteMethod "get_invalidation" = false := by decide
  induction items with
  | nil => rfl
  | cons inv rest ih =>
    rcases hrec : invalidationLoop env did rest with ⟨r, t⟩
    rw [hrec] at ih
    unfold invalidationLoop
    rw [hrec]
    repeat' split
    all_goals simp_all [withTrace, hasWrite, isWriteEvent]

lemma streamingLoop_no_write (env : Env) (items : List JsonVal) :
    hasWrite (streamingLoop env items).2 = false := by
  have hw : isWriteMethod "get_streaming_distribution_config" = false := by decide
  induction items with
  | nil => rfl
  | cons dist rest ih =>
    rcases hrec : streamingLoop env rest with ⟨r, t⟩
    rw [hrec] at ih
    unfold streamingLoop
    rw [hrec]
    repeat' split
    all_goals simp_all [withTrace, hasWrite, isWriteEvent]

lemma get_existing_distributions_no_write (env : Env) (p : ModuleParams) :
    hasWrite (get_existing_distributions env p).2 = false := by
  have hw : isWriteMethod "list_distributions" = false := by decide
  have h := distLoop_no_write env
  unfold get_existing_distributions
  repeat' split
  all_goals simp_all [withTrace, hasWrite, isWriteEvent]
  all_goals exact h _

lemma get_existing_origin_access_id_no_write (env : Env) (p : ModuleParams) :
    hasWrite (get_existing_origin_access_id env p).2 = false := by
  have hw : isWriteMethod "list_cloud_front_origin_access_identities" = false := by decide
  have h := originLoop_no_write env
  unfold get_existing_origin_access_id
  repeat' split
  all_goals simp_all [withTrace, hasWrite, isWriteEvent]
  all_goals exact h _

lemma get_existing_invalidations_no_write (env : Env) (p : ModuleParams) :
    hasWrite (get_existing_invalidations env p).2 = false := by
  have hw : isWriteMethod "list_invalidations" = false := by decide
  have h := invalidationLoop_no_write env (optStrVal p.resource_id)
  unfold get_existing_invalidations
  repeat' split
  all_goals simp_all [withTrace, hasWrite, isWriteEvent]
  all_goals exact h _

lemma get_existing_streaming_distributions_no_write (env : Env) (p : ModuleParams) :
    hasWrite (get_existing_streaming_distributions env p).2 = false := by
  have hw : isWriteMethod "list_streaming_distributions" = false := by decide
  have h := streamingLoop_no_write env
  unfold get_existing_streaming_distributions
  repeat' split
  all_goals simp_all [withTrace, hasWrite, isWriteEvent]
  all_goals exact h _

lemma get_config_method_no_write (env : Env) (p : ModuleParams) (t : String)
    (g : Env → ModuleParams → M (List Resource)) (hg : get_config_method t = some g) :
    hasWrite (g env p).2 = false := by
  unfold get_config_method at hg
  split_ifs at hg <;>
    first
      | (simp only [Option.some.injEq] at hg
         subst hg
         first
           | exact get_existing_distributions_no_write env p
           | exact get_existing_origin_access_id_no_write env p
           | exact get_existing_invalidations_no_write env p
           | exact get_existing_streaming_distributions_no_write env p)
      | simp at hg

lemma details_invocation_no_write (t m : String) (hm : details_invocation t = some m) :
    isWriteMethod m = false := by
  unfold details_invocation at hm
  split_ifs at hm <;>
    first
      | (simp only [Option.some.injEq] at hm; subst hm; decide)
      | simp at hm

lemma return_resource_details_no_write (env : Env) (p : ModuleParams) (it : Resource) :
    hasWrite (return_resource_details env p it).2 = false := by
  unfold return_resource_details
  rcases hm : details_invocation p.type with _ | m
  · rfl
  · have hmw : isWriteMethod m = false := details_invocation_no_write p.type m hm
    by_cases ht : (p.type == "invalidation") = true <;>
      simp [ht, hasWrite, isWriteEvent, hmw]

lemma wait_invocation_no_write (t m rk : String) (hw : wait_invocation t = some (m, rk)) :
    isWriteMethod m = false := by
  unfold wait_invocation at hw
  split_ifs at hw <;>
    first
      | (simp only [Option.some.injEq, Prod.mk.injEq] at hw
         obtain ⟨h1, h2⟩ := hw
         subst h1
         decide)
      | simp at hw

lemma waitLoop_no_write (env : Env) (m result_key : String) (args : List (String × JsonVal))
    (hm : isWriteMethod m = false) :
    ∀ k x, hasWrite (waitLoop env m result_key args x k).2 = false := by
  intro k
  induction k with
  | zero => intro x; rfl
  | succ n ih =>
    intro x
    rcases hrec : waitLoop env m result_key args (x + 1) n with ⟨r, t⟩
    have ih2 := ih (x + 1)
    rw [hrec] at ih2
    unfold waitLoop
    rw [hrec]
    repeat' split
    all_goals simp_all [withTrace, hasWrite, isWriteEvent]

lemma wait_no_write (env : Env) (p : ModuleParams) (args : List (String × JsonVal)) (n : Nat) :
    hasWrite (wait_for_deployed_status env p args n).2 = false := by
  unfold wait_for_deployed_status
  rcases hw : wait_invocation p.type with _ | ⟨m, rk⟩
  · rfl
  · exact waitLoop_no_write env m rk args (wait_invocation_no_write p.type m rk hw) n 0

lemma update_invocation_write (t m cp : String) (hu : update_invocation t = some (m, cp)) :
    isWriteMethod m = true := by
  unfold update_invocation at hu
  split_ifs at hu <;>
    first
      | (simp only [Option.some.injEq, Prod.mk.injEq] at hu
         obtain ⟨h1, h2⟩ := hu
         subst h1
         decide)
      | simp at hu

lemma creation_invocation_write (t m cp rk : String)
    (hc : creation_invocation t = some (m, cp, rk)) : isWriteMethod m = true := by
  unfold creation_invocation at hc
  split_ifs at hc <;>
    first
      | (simp only [Option.some.injEq, Prod.mk.injEq] at hc
         obtain ⟨h1, h2⟩ := hc
         subst h1
         decide)
      | simp at hc

lemma removal_invocation_write (t m : String) (hr : removal_invocation t = some m) :
    isWriteMethod m = true := by
  unfold removal_invocation at hr
  split_ifs at hr <;>
    first
      | (simp only [Option.some.injEq] at hr; subst hr; decide)
      | simp at hr

lemma update_ok (env : Env) (p : ModuleParams) (pol idv etagv : JsonVal)
    (ch : Bool) (r : JsonVal) (t : List Event)
    (h : update env p pol idv etagv = (.ok (ch, r), t)) :
    ch = true ∧ hasWrite t = true := by
  unfold update at h
  rcases hu : update_invocation p.type with _ | ⟨m, cp⟩ <;> rw [hu] at h
  · simp at h
  · have hmw : isWriteMethod m = true := update_invocation_write p.type m cp hu
    repeat' split at h
    all_goals
      (injection h with h1 h2
       first
         | exact Except.noConfusion h1
         | (injection h1 with h3
            injection h3 with h4 h5
            subst h4
            refine ⟨rfl, ?_⟩
            rw [← h2, hasWrite_cons]
            simp_all [isWriteEvent]))

lemma creation_ok (env : Env) (p : ModuleParams) (pol : JsonVal)
    (ch : Bool) (r : JsonVal) (t : List Event)
    (h : creation env p pol = (.ok (ch, r), t)) :
    ch = true ∧ hasWrite t = true := by
  unfold creation at h
  rcases hc : creation_invocation p.type with _ | ⟨m, cp, rk⟩ <;> rw [hc] at h
  · simp at h
  · have hmw : isWriteMethod m = true := creation_invocation_write p.type m cp rk hc
    repeat' split at h
    all_goals
      (injection h with h1 h2
       first
         | exact Except.noConfusion h1
         | (injection h1 with h3
            injection h3 with h4 h5
            subst h4
            refine ⟨rfl, ?_⟩
            rw [← h2, hasWrite_cons]
            simp_all [isWriteEvent]))

lemma removal_ok (env : Env) (p : ModuleParams) (idv etagv : JsonVal)
    (ch : Bool) (r : JsonVal) (t : List Event)
    (h : removal env p idv etagv = (.ok (ch, r), t)) :
    ch = true ∧ hasWrite t = true := by
  unfold removal at h
  rcases hr : removal_invocation p.type with _ | m <;> rw [hr] at h
  · simp at h
  · have hmw : isWriteMethod m = true := removal_invocation_write p.type m hr
    injection h with h1 h2
    injection h1 with h3
    injection h3 with h4 h5
    subst h4
    refine ⟨rfl, ?_⟩
    rw [← h2, hasWrite_cons]
    simp [isWriteEvent, hmw]



lemma creationLoop_skip (env : Env) (p : ModuleParams) (pol cr : JsonVal)
    (items : List Resource) (ch ex : Bool) (res : Option JsonVal)
    (h : ∀ it ∈ items, ∃ v, pyIndex it.Config "CallerReference" = Except.ok v ∧ jsonBeq cr v = false) :
    creationLoop env p pol cr items ch ex res = (.ok (ch, ex, res), []) := by
  induction items with
  | nil => rfl
  | cons it rest ih =>
    obtain ⟨v, hv, hne⟩ := h it (List.mem_cons_self it rest)
    unfold creationLoop
    rw [hv]
    dsimp only []
    have hcond : ¬(jsonBeq cr v = true) := by simp [hne]
    rw [if_neg hcond]
    exact ih (fun it2 hm => h it2 (List.mem_cons_of_mem _ hm))

lemma creationLoop_changed (env : Env) (p : ModuleParams) (pol cr : JsonVal) :
    ∀ (items : List Resource) (ch ex : Bool) (res : Option JsonVal)
      (ch2 ex2 : Bool) (res2 : Option JsonVal) (t : List Event),
      creationLoop env p pol cr items ch ex res = (.ok (ch2, ex2, res2), t) →
      (ch2 = true ↔ (ch = true ∨ hasWrite t = true)) := by
  intro items
  induction items with
  | nil =>
    intro ch ex res ch2 ex2 res2 t h
    injection h with h1 h2
    injection h1 with h3
    injection h3 with h4 h5
    subst h4
    subst h2
    simp [hasWrite]
  | cons it rest ih =>
    intro ch ex res ch2 ex2 res2 t h
    unfold creationLoop at h
    cases hcr : pyIndex it.Config "CallerReference" with
    | error e =>
      rw [hcr] at h
      injection h with h1 h2
      exact Except.noConfusion h1
    | ok v =>
      rw [hcr] at h
      dsimp only [] at h
      by_cases hm1 : jsonBeq cr v = true
      · rw [if_pos hm1] at h
        by_cases hm2 : jsonBeq pol it.Config = true
        · rw [if_pos hm2] at h
          rcases hdet : return_resource_details env p it with ⟨rd, td⟩
          rw [hdet] at h
          cases rd with
          | error e =>
            injection h with h1 h2
            exact Except.noConfusion h1
          | ok d =>
            dsimp only [] at h
            rcases hrec : creationLoop env p pol cr rest ch true (some d) with ⟨r2, t2⟩
            rw [hrec] at h
            unfold withTrace at h
            injection h with h1 h2
            cases r2 with
            | error e => exact Except.noConfusion h1
            | ok trip =>
              injection h1 with h3
              rw [h3] at hrec
              have hiff := ih ch true (some d) ch2 ex2 res2 t2 hrec
              have htd : hasWrite td = false := by
                have hx := return_resource_details_no_write env p it
                rw [hdet] at hx
                exact hx
              rw [← h2]
              simpa [hasWrite_append, htd] using hiff
        · rw [if_neg hm2] at h
          by_cases hm3 : (p.type == "invalidation") = true
          · rw [if_pos hm3] at h
            injection h with h1 h2
            exact Except.noConfusion h1
          · rw [if_neg hm3] at h
            rcases hupd : update env p pol it.Id it.ETag with ⟨ru, tu⟩
            rw [hupd] at h
            cases ru with
            | error e =>
              injection h with h1 h2
              exact Except.noConfusion h1
            | ok pr =>
              rcases pr with ⟨chU, resU⟩
              dsimp only [] at h
              obtain ⟨hchU, hwU⟩ := update_ok env p pol it.Id it.ETag chU resU tu hupd
              rcases hrec : creationLoop env p pol cr rest chU true (some resU) with ⟨r2, t2⟩
              rw [hrec] at h
              unfold withTrace at h
              injection h with h1 h2
              cases r2 with
              | error e => exact Except.noConfusion h1
              | ok trip =>
                injection h1 with h3
                rw [h3] at hrec
                have hiff := ih chU true (some resU) ch2 ex2 res2 t2 hrec
                have hch2 : ch2 = true := hiff.mpr (Or.inl hchU)
                constructor
                · intro _
                  right
                  rw [← h2, hasWrite_append, hwU]
                  simp
                · intro _
                  exact hch2
      · rw [if_neg hm1] at h
        exact ih ch ex res ch2 ex2 res2 t h

lemma runModule_present (env : Env) (p : ModuleParams) (h : p.state = "present") :
    runModule env p = creation_setup env p := by
  unfold runModule
  rw [h]
  rfl

lemma runModule_absent (env : Env) (p : ModuleParams) (h : p.state = "absent") :
    runModule env p = removal_setup env p := by
  unfold runModule
  rw [h]
  rfl

lemma parsePolicy_error (env : Env) (s e : String)
    (hcase : (∃ c, env.readFile s = Except.ok c ∧ env.jsonParse c = Except.error e)
        ∨ ((∃ msg, env.readFile s = Except.error msg) ∧ env.jsonParse s = Except.error e)) :
    parsePolicy env s = Except.error (.failJson e) := by
  unfold parsePolicy
  rcases hcase with ⟨c, hrf, hpe⟩ | ⟨⟨msg, hrf⟩, hpe⟩ <;> rw [hrf] <;> dsimp only [] <;> rw [hpe]

/-! ## Environments and parameters used as concrete instances -/

/-- An environment with no readable files, no parseable JSON and empty API
responses. -/
def envTrivial : Env :=
  ⟨fun _ => Except.error "No such file or directory",
   fun _ => Except.error "No JSON object could be decoded",
   fun _ _ => JsonVal.obj [],
   fun _ _ _ => JsonVal.obj []⟩

/-! ## C10 -/

/-- C10: with `state=present` and no `policy` parameter, `creation_setup`
evaluates `'CallerReference' not in policy` with `policy` still `None` and
raises an unhandled Python error (not a `fail_json` message), before any API
call. -/
theorem c10_none_policy_raises (env : Env) (p : ModuleParams)
    (hstate : p.state = "present") (hpol : p.policy = none) :
    ∃ s, runModule env p = (Except.error (ModuleFailure.pyError s), []) := by
  rw [runModule_present env p hstate]
  unfold creation_setup
  rw [hpol]
  exact ⟨_, rfl⟩

/-- Parameters: `type=distribution, state=present`, no policy. -/
def pW10 : ModuleParams := ⟨"distribution", none, none, "present", false⟩

theorem c10_witness :
    ∃ s, runModule envTrivial pW10 = (Except.error (ModuleFailure.pyError s), []) :=
  c10_none_policy_raises envTrivial pW10 rfl rfl

/-! ## C6 -/

/-- C6: with `state=present` and a `policy` parameter that is neither a
readable file holding valid JSON nor itself valid JSON, the module fails with
the JSON parse error as its message and issues no API call. -/
theorem c6_invalid_policy_fails (env : Env) (p : ModuleParams) (s e : String)
    (hstate : p.state = "present") (hpol : p.policy = some s) (hne : s ≠ "")
    (hcase : (∃ c, env.readFile s = Except.ok c ∧ env.jsonParse c = Except.error e)
        ∨ ((∃ msg, env.readFile s = Except.error msg) ∧ env.jsonParse s = Except.error e)) :
    runModule env p = (Except.error (ModuleFailure.failJson e), []) := by
  rw [runModule_present env p hstate]
  unfold creation_setup
  rw [hpol]
  have ht : optTruthy (some s) = true := by simp [optTruthy, hne]
  rw [if_pos ht]
  dsimp only []
  rw [parsePolicy_error env s e hcase]
  rfl

theorem c6_witness :
    runModule envTrivial (⟨"distribution", some "not json", none, "present", false⟩ : ModuleParams) =
      (Except.error (ModuleFailure.failJson "No JSON object could be decoded"), []) :=
  c6_invalid_policy_fails envTrivial _ "not json" "No JSON object could be decoded" rfl rfl
    (by decide)
    (Or.inr ⟨⟨"No such file or directory", rfl⟩, rfl⟩)

/-! ## C7 -/

/-- C7: each missing required parameter aborts the invocation with a
`fail_json` message before any create, update or delete API call:
(a) `resource_id` when `type=invalidation` and `state=present`;
(b) `resource_id` when `state=absent`;
(c) `CallerReference` missing from the parsed policy. -/
theorem c7_missing_params_fail (env : Env) (p : ModuleParams) (s : String) (pol cr : JsonVal) :
    (p.state = "present" → p.type = "invalidation" → p.policy = some s → s ≠ "" →
      parsePolicy env s = Except.ok pol →
      pyContains "CallerReference" pol = Except.ok true →
      pyIndex pol "CallerReference" = Except.ok cr →
      optTruthy p.resource_id = false →
      runModule env p =
        (Except.error (ModuleFailure.failJson "distribution_id is required for invalidations"), []))
    ∧ (p.state = "absent" → optTruthy p.resource_id = false →
      ∃ m, runModule env p = (Except.error (ModuleFailure.failJson m), []))
    ∧ (p.state = "present" → p.policy = some s → s ≠ "" →
      parsePolicy env s = Except.ok pol →
      pyContains "CallerReference" pol = Except.ok false →
      runModule env p =
        (Except.error (ModuleFailure.failJson "CallerReference is required in your policy"), [])) := by
  refine ⟨?_, ?_, ?_⟩
  · intro hstate htype hpol hne hparse hcont hidx hres
    rw [runModule_present env p hstate]
    unfold creation_setup
    rw [hpol]
    have ht : optTruthy (some s) = true := by simp [optTruthy, hne]
    rw [if_pos ht]
    dsimp only []
    rw [hparse]
    dsimp only [Except.map]
    rw [hcont]
    dsimp only []
    rw [hidx]
    dsimp only []
    rw [htype]
    have hg : get_config_method "invalidation" = some get_existing_invalidations := rfl
    rw [hg]
    dsimp only []
    unfold get_existing_invalidations
    rw [hres]
    rfl
  · intro hstate hres
    rw [runModule_absent env p hstate]
    unfold removal_setup
    by_cases hti : (p.type == "invalidation") = true
    · rw [if_pos hti]
      exact ⟨_, rfl⟩
    · rw [if_neg hti]
      rw [hres]
      exact ⟨_, rfl⟩
  · intro hstate hpol hne hparse hcont
    rw [runModule_present env p hstate]
    unfold creation_setup
    rw [hpol]
    have ht : optTruthy (some s) = true := by simp [optTruthy, hne]
    rw [if_pos ht]
    dsimp only []
    rw [hparse]
    dsimp only [Except.map]
    rw [hcont]

/-- The policy `{"CallerReference": "cr-7"}` offered as the literal string
`POLICY7`, plus a policy without a caller reference as `POLICY7B`. -/
def envW7 : Env :=
  ⟨fun _ => Except.error "No such file or directory",
   fun s =>
     if s == "POLICY7" then Except.ok (JsonVal.obj [("CallerReference", JsonVal.str "cr-7")])
     else if s == "POLICY7B" then Except.ok (JsonVal.obj [("Paths", JsonVal.null)])
     else Except.error "No JSON object could be decoded",
   fun _ _ => JsonVal.obj [],
   fun _ _ _ => JsonVal.obj []⟩

theorem c7_witness :
    (runModule envW7 (⟨"invalidation", some "POLICY7", none, "present", false⟩ : ModuleParams) =
      (Except.error (ModuleFailure.failJson "distribution_id is required for invalidations"), []))
    ∧ (∃ m, runModule envW7 (⟨"distribution", some "POLICY7", none, "absent", false⟩ : ModuleParams) =
      (Except.error (ModuleFailure.failJson m), []))
    ∧ (runModule envW7 (⟨"distribution", some "POLICY7B", none, "present", false⟩ : ModuleParams) =
      (Except.error (ModuleFailure.failJson "CallerReference is required in your policy"), [])) := by
  refine ⟨?_, ?_, ?_⟩
  · exact (c7_missing_params_fail envW7 _ "POLICY7"
      (JsonVal.obj [("CallerReference", JsonVal.str "cr-7")]) (JsonVal.str "cr-7")).1
      rfl rfl rfl (by decide) rfl rfl rfl rfl
  · exact (c7_missing_params_fail envW7 _ "POLICY7"
      (JsonVal.obj [("CallerReference", JsonVal.str "cr-7")]) (JsonVal.str "cr-7")).2.1
      rfl rfl
  · exact (c7_missing_params_fail envW7 _ "POLICY7B"
      (JsonVal.obj [("Paths", JsonVal.null)]) JsonVal.null).2.2
      rfl rfl (by decide) rfl rfl

/-! ## C1 -/

/-- Policy submitted for the existing streaming distribution `SID1`. -/
def polC1 : JsonVal := .obj [("CallerReference", .str "cr-1"), ("Comment", .str "new")]

/-- The differing config the existing streaming distribution already has. -/
def cfgC1 : JsonVal := .obj [("CallerReference", .str "cr-1"), ("Comment", .str "old")]

/-- Control plane holding exactly one streaming distribution `SID1` with
config `cfgC1` and ETag `E1`. -/
def envC1 : Env :=
  ⟨fun _ => Except.error "No such file or directory",
   fun s => if s == "POLICY1" then Except.ok polC1 else Except.error "No JSON object could be decoded",
   fun m _ =>
     if m == "list_streaming_distributions" then
       .obj [("StreamingDistributionList", .obj [("Items",
         .arr [.obj [("Id", .str "SID1"), ("DomainName", .str "ex.cloudfront.net")]])])]
     else if m == "get_streaming_distribution_config" then
       .obj [("StreamingDistributionConfig", cfgC1), ("ETag", .str "E1")]
     else .obj [],
   fun _ _ _ => JsonVal.null⟩

/-- `type=streaming, state=present`, policy `polC1`. -/
def pC1 : ModuleParams := ⟨"streaming", some "POLICY1", none, "present", false⟩

/-- C1: on `type='streaming'`, `state='present'` with an existing streaming
distribution whose `CallerReference` matches the policy but whose config
differs, the module takes the update path (passing the resource's `Id` and
`ETag` as `IfMatch`) but the dispatch table of `update` (cloudfront.py line
360) invokes the SDK method `create_streaming_distribution`, not the
streaming-distribution update method: the full trace contains a
`create_streaming_distribution` call and no `update_streaming_distribution`
call. -/
theorem c1_streaming_update_calls_create_method :
    runModule envC1 pC1 =
      (Except.ok (true, JsonVal.obj []),
       [Event.api "list_streaming_distributions" [],
        Event.api "get_streaming_distribution_config" [("Id", JsonVal.str "SID1")],
        Event.api "create_streaming_distribution"
          [("StreamingDistributionConfig", polC1), ("Id", JsonVal.str "SID1"),
           ("IfMatch", JsonVal.str "E1")]]) := rfl

/-! ## C9 -/

/-- C9: with `state=absent`, `wait_for_deployed` unset and a valid
`resource_id`, when the fetched config's `Enabled` field is truthy the module
fails with the disabled-first message, and its whole trace is the single
config fetch: no delete (or any other write) call is issued. -/
theorem c9_enabled_blocks_removal (env : Env) (p : ModuleParams)
    (m cp : String) (cfg enabledv : JsonVal)
    (hstate : p.state = "absent")
    (hinv : removal_config_invocation p.type = some (m, cp))
    (hres : optTruthy p.resource_id = true)
    (hwd : p.wait_for_deployed = false)
    (hcfg : pyIndex (env.apiResult m [("Id", optStrVal p.resource_id)]) cp = Except.ok cfg)
    (henab : pyIndex cfg "Enabled" = Except.ok enabledv)
    (htru : pyTruthy enabledv = true) :
    runModule env p =
      (Except.error (ModuleFailure.failJson "Resource must be disabled before you can remove it from AWS"),
       [Event.api m [("Id", optStrVal p.resource_id)]])
    ∧ hasWrite (runModule env p).2 = false := by
  have hti : ¬((p.type == "invalidation") = true) := by
    intro hq
    rw [beq_iff_eq] at hq
    rw [hq] at hinv
    simp [removal_config_invocation] at hinv
  have hmain : runModule env p =
      (Except.error (ModuleFailure.failJson "Resource must be disabled before you can remove it from AWS"),
       [Event.api m [("Id", optStrVal p.resource_id)]]) := by
    rw [runModule_absent env p hstate]
    unfold removal_setup
    rw [if_neg hti, hres]
    rw [if_neg (by decide : ¬((!true) = true))]
    rw [hwd]
    rw [if_neg (by decide : ¬(false = true))]
    rw [hinv]
    dsimp only []
    rw [hcfg]
    dsimp only []
    rw [henab]
    dsimp only []
    rw [htru]
    rw [if_neg (by decide : ¬((!true) = true))]
  refine ⟨hmain, ?_⟩
  rw [hmain]
  have hx : isWriteMethod m = false := by
    unfold removal_config_invocation at hinv
    split_ifs at hinv <;>
      first
        | (simp only [Option.some.injEq, Prod.mk.injEq] at hinv
           obtain ⟨h1, h2⟩ := hinv
           subst h1
           decide)
        | simp at hinv
  simp [hasWrite, isWriteEvent, hx]

/-- Control plane where distribution `D9` is still enabled. -/
def envW9 : Env :=
  ⟨fun _ => Except.error "No such file or directory",
   fun _ => Except.error "No JSON object could be decoded",
   fun m _ =>
     if m == "get_distribution_config" then
       .obj [("DistributionConfig", .obj [("CallerReference", .str "cr-9"), ("Enabled", .bool true)]),
             ("ETag", .str "E9")]
     else .obj [],
   fun _ _ _ => JsonVal.null⟩

theorem c9_witness :
    runModule envW9 (⟨"distribution", none, some "D9", "absent", false⟩ : ModuleParams) =
      (Except.error (ModuleFailure.failJson "Resource must be disabled before you can remove it from AWS"),
       [Event.api "get_distribution_config" [("Id", JsonVal.str "D9")]]) :=
  (c9_enabled_blocks_removal envW9
    (⟨"distribution", none, some "D9", "absent", false⟩ : ModuleParams)
    "get_distribution_config" "DistributionConfig"
    (JsonVal.obj [("CallerReference", JsonVal.str "cr-9"), ("Enabled", JsonVal.bool true)])
    (JsonVal.bool true) rfl rfl rfl rfl rfl rfl rfl).1

/-! ## C4 -/

/-- C4: with `wait_for_deployed` set, when the bounded poll reports that the
resource never reached `Deployed`/`Completed` (`wait_for_deployed_status`
returns `False`), both `creation` and `update` abort the invocation with the
timeout message.  The creation half covers every type the create dispatch
table holds — including `invalidation`, whose `params`/`args` carry the
extra `DistributionId` entry exactly as in the source; the update half
covers every type the update dispatch table holds. -/
theorem c4_wait_timeout_fails (env : Env) (p : ModuleParams)
    (pol idv etagv r1 ridv : JsonVal) (cm cp rk um ucp : String)
    (cparams cargs : List (String × JsonVal))
    (hw : p.wait_for_deployed = true) :
    (creation_invocation p.type = some (cm, cp, rk) →
      (if (p.type == "invalidation") = true then
        ([(cp, pol), ("DistributionId", optStrVal p.resource_id)],
         [("DistributionId", optStrVal p.resource_id)])
       else ([(cp, pol)], [])) = (cparams, cargs) →
      pyIndex (env.apiResult cm cparams) rk = Except.ok r1 →
      pyIndex r1 "Id" = Except.ok ridv →
      (wait_for_deployed_status env p (cargs ++ [("Id", ridv)]) 30).1 = Except.ok false →
      (creation env p pol).1 = Except.error (ModuleFailure.failJson msgTimeout))
    ∧ (update_invocation p.type = some (um, ucp) →
      (wait_for_deployed_status env p [("Id", idv)] 30).1 = Except.ok false →
      (update env p pol idv etagv).1 = Except.error (ModuleFailure.failJson msgTimeout)) := by
  constructor
  · intro hci hpa hres1 hrid hwaitC
    unfold creation
    rw [hci]
    dsimp only []
    rw [hpa]
    dsimp only []
    rw [hw]
    rw [if_pos rfl]
    rw [hres1]
    dsimp only []
    rw [hrid]
    dsimp only []
    rcases hwp : wait_for_deployed_status env p (cargs ++ [("Id", ridv)]) 30 with ⟨wr, wt⟩
    rw [hwp] at hwaitC
    dsimp only [] at hwaitC
    subst hwaitC
    simp [hwp]
  · intro hui hwaitU
    unfold update
    rw [hui]
    dsimp only []
    rw [hw]
    rw [if_pos rfl]
    rcases hwp : wait_for_deployed_status env p [("Id", idv)] 30 with ⟨wr, wt⟩
    rw [hwp] at hwaitU
    dsimp only [] at hwaitU
    subst hwaitU
    rfl

/-- Control plane where the create call returns distribution `D4` and every
poll keeps reporting `InProgress`. -/
def envW4 : Env :=
  ⟨fun _ => Except.error "No such file or directory",
   fun _ => Except.error "No JSON object could be decoded",
   fun m _ =>
     if m == "create_distribution" then .obj [("Distribution", .obj [("Id", .str "D4")])]
     else .obj [],
   fun _ m _ =>
     if m == "get_distribution" then .obj [("Distribution", .obj [("Status", .str "InProgress")])]
     else .obj []⟩

/-- `type=distribution, wait_for_deployed=yes`. -/
def pW4 : ModuleParams := ⟨"distribution", some "POLICY4", some "D4", "present", true⟩

/-- Control plane where the create call returns invalidation `I4` for
distribution `D4` and every poll keeps reporting `InProgress`. -/
def envW4b : Env :=
  ⟨fun _ => Except.error "No such file or directory",
   fun _ => Except.error "No JSON object could be decoded",
   fun m _ =>
     if m == "create_invalidation" then .obj [("Invalidation", .obj [("Id", .str "I4")])]
     else .obj [],
   fun _ m _ =>
     if m == "get_invalidation" then .obj [("Invalidation", .obj [("Status", .str "InProgress")])]
     else .obj []⟩

/-- `type=invalidation, wait_for_deployed=yes` against distribution `D4`. -/
def pW4b : ModuleParams := ⟨"invalidation", some "POLICY4", some "D4", "present", true⟩

theorem c4_witness :
    (creation envW4b pW4b (JsonVal.obj [("CallerReference", JsonVal.str "cr-4")])).1 =
      Except.error (ModuleFailure.failJson msgTimeout)
    ∧ (creation envW4 pW4 (JsonVal.obj [("CallerReference", JsonVal.str "cr-4")])).1 =
      Except.error (ModuleFailure.failJson msgTimeout)
    ∧ (update envW4 pW4 (JsonVal.obj [("CallerReference", JsonVal.str "cr-4")])
        (JsonVal.str "D4") (JsonVal.str "E4")).1 =
      Except.error (ModuleFailure.failJson msgTimeout) :=
  ⟨(c4_wait_timeout_fails envW4b pW4b (JsonVal.obj [("CallerReference", JsonVal.str "cr-4")])
      JsonVal.null JsonVal.null
      (JsonVal.obj [("Id", JsonVal.str "I4")]) (JsonVal.str "I4")
      "create_invalidation" "InvalidationBatch" "Invalidation" "" ""
      [("InvalidationBatch", JsonVal.obj [("CallerReference", JsonVal.str "cr-4")]),
       ("DistributionId", JsonVal.str "D4")]
      [("DistributionId", JsonVal.str "D4")]
      rfl).1 rfl rfl rfl rfl (by rfl),
   (c4_wait_timeout_fails envW4 pW4 (JsonVal.obj [("CallerReference", JsonVal.str "cr-4")])
      JsonVal.null JsonVal.null
      (JsonVal.obj [("Id", JsonVal.str "D4")]) (JsonVal.str "D4")
      "create_distribution" "DistributionConfig" "Distribution" "" ""
      [("DistributionConfig", JsonVal.obj [("CallerReference", JsonVal.str "cr-4")])] []
      rfl).1 rfl rfl rfl rfl (by rfl),
   (c4_wait_timeout_fails envW4 pW4 (JsonVal.obj [("CallerReference", JsonVal.str "cr-4")])
      (JsonVal.str "D4") (JsonVal.str "E4") JsonVal.null JsonVal.null
      "" "" "" "update_distribution" "DistributionConfig" [] []
      rfl).2 rfl (by rfl)⟩

/-! ## C3 -/

lemma waitLoop_spec (env : Env) (m rk : String) (args : List (String × JsonVal))
    (hok : ∀ i, ∃ s, statusOf env m rk args i = Except.ok s) :
    ∀ k x,
      ((waitLoop env m rk args x k).1 = Except.ok true ∨
        (waitLoop env m rk args x k).1 = Except.ok false)
      ∧ ((waitLoop env m rk args x k).1 = Except.ok true ↔
          ∃ j, j < k ∧ deployedAt env m rk args (x + j) = true)
      ∧ apiCount (waitLoop env m rk args x k).2 ≤ k
      ∧ (∀ s, Event.sleep s ∈ (waitLoop env m rk args x k).2 → s = 30) := by
  intro k
  induction k with
  | zero =>
    intro x
    refine ⟨Or.inr rfl, ?_, ?_, ?_⟩
    · simp [waitLoop]
    · simp [waitLoop, apiCount]
    · simp [waitLoop]
  | succ n ih =>
    intro x
    obtain ⟨s, hs⟩ := hok x
    cases h1 : pyIndex (env.pollResult x m args) rk with
    | error e =>
      exfalso
      unfold statusOf at hs
      rw [h1] at hs
      exact Except.noConfusion hs
    | ok result =>
      have hs2 : pyIndex result "Status" = Except.ok s := by
        unfold statusOf at hs
        rw [h1] at hs
        exact hs
      have hstat : statusOf env m rk args x = Except.ok s := by
        unfold statusOf
        rw [h1]
        exact hs2
      have hdep : deployedAt env m rk args x =
          (jsonBeq s (.str "Deployed") || jsonBeq s (.str "Completed")) := by
        unfold deployedAt
        rw [hstat]
      by_cases hb : (jsonBeq s (.str "Deployed") || jsonBeq s (.str "Completed")) = true
      · have hred : waitLoop env m rk args x (n + 1) = (Except.ok true, [Event.api m args]) := by
          unfold waitLoop
          rw [h1]
          dsimp only []
          rw [hs2]
          dsimp only []
          rw [if_pos hb]
        rw [hred]
        refine ⟨Or.inl rfl, ?_, ?_, ?_⟩
        · constructor
          · intro _
            exact ⟨0, Nat.succ_pos n, by rw [Nat.add_zero, hdep]; exact hb⟩
          · intro _
            rfl
        · simp [apiCount]
        · intro s2 hmem
          simp at hmem
      · have hbf : deployedAt env m rk args x = false := by
          rw [hdep]
          simpa using hb
        rcases hrec : waitLoop env m rk args (x + 1) n with ⟨r2, t2⟩
        have hred : waitLoop env m rk args x (n + 1) =
            (r2, Event.api m args :: Event.sleep 30 :: t2) := by
          unfold waitLoop
          rw [h1]
          dsimp only []
          rw [hs2]
          dsimp only []
          rw [if_neg hb]
          unfold withTrace
          rw [hrec]
          rfl
        obtain ⟨ihl, ihiff, ihcount, ihsleep⟩ := ih (x + 1)
        rw [hrec] at ihl ihiff ihcount ihsleep
        rw [hred]
        refine ⟨ihl, ?_, ?_, ?_⟩
        · dsimp only [] at ihiff ⊢
          rw [ihiff]
          constructor
          · rintro ⟨j, hj, hdj⟩
            exact ⟨j + 1, by omega, by rw [show x + (j + 1) = x + 1 + j by omega]; exact hdj⟩
          · rintro ⟨j, hj, hdj⟩
            cases j with
            | zero =>
              rw [Nat.add_zero] at hdj
              rw [hbf] at hdj
              exact absurd hdj (by simp)
            | succ j2 =>
              exact ⟨j2, by omega, by rw [show x + 1 + j2 = x + (j2 + 1) by omega]; exact hdj⟩
        · dsimp only [] at ihcount ⊢
          simp only [apiCount, List.filter_cons] at ihcount ⊢
          simp at ihcount ⊢
          omega
        · intro s2 hmem
          dsimp only [] at hmem
          simp only [List.mem_cons] at hmem
          rcases hmem with h | h | h
          · exact Event.noConfusion h
          · simpa using h
          · exact ihsleep s2 h

/-- C3: the polling loop of `wait_for_deployed_status` always terminates
without an exception when each poll response is well formed: it polls at most
`max_retries` (30 at every call site) times, every sleep between polls is
exactly 30 seconds, and it returns `True` exactly when some polled iteration
below the bound observes status `Deployed` or `Completed` (and `False`
otherwise). -/
theorem c3_wait_loop_bounded (env : Env) (p : ModuleParams)
    (args : List (String × JsonVal)) (max_retries : Nat) (m rk : String)
    (hwi : wait_invocation p.type = some (m, rk))
    (hok : ∀ i, ∃ s, statusOf env m rk args i = Except.ok s) :
    ((wait_for_deployed_status env p args max_retries).1 = Except.ok true ∨
      (wait_for_deployed_status env p args max_retries).1 = Except.ok false)
    ∧ ((wait_for_deployed_status env p args max_retries).1 = Except.ok true ↔
        ∃ j, j < max_retries ∧ deployedAt env m rk args j = true)
    ∧ apiCount (wait_for_deployed_status env p args max_retries).2 ≤ max_retries
    ∧ (∀ s, Event.sleep s ∈ (wait_for_deployed_status env p args max_retries).2 → s = 30) := by
  unfold wait_for_deployed_status
  rw [hwi]
  dsimp only []
  have h := waitLoop_spec env m rk args hok max_retries 0
  simpa using h

/-- Control plane whose polls always report `Deployed`. -/
def envW3 : Env :=
  ⟨fun _ => Except.error "No such file or directory",
   fun _ => Except.error "No JSON object could be decoded",
   fun _ _ => JsonVal.obj [],
   fun _ m _ =>
     if m == "get_distribution" then .obj [("Distribution", .obj [("Status", .str "Deployed")])]
     else .obj []⟩

/-- `type=distribution`. -/
def pW3 : ModuleParams := ⟨"distribution", none, some "D3", "present", true⟩

theorem c3_witness :
    (wait_for_deployed_status envW3 pW3 [("Id", JsonVal.str "D3")] 30).1 = Except.ok true := by
  have h := c3_wait_loop_bounded envW3 pW3 [("Id", JsonVal.str "D3")] 30
    "get_distribution" "Distribution" rfl (fun i => ⟨JsonVal.str "Deployed", rfl⟩)
  exact h.2.1.mpr ⟨0, by decide, rfl⟩

/-! ## C8 -/

lemma creation_setup_changed (env : Env) (p : ModuleParams) (ch : Bool) (res : JsonVal)
    (tr : List Event) (h : creation_setup env p = (Except.ok (ch, res), tr)) :
    (ch = true ↔ hasWrite tr = true) := by
  unfold creation_setup at h
  cases hq1 : (if optTruthy p.policy = true then
      (match p.policy with
       | some s => Except.map some (parsePolicy env s)
       | none => Except.ok none)
    else Except.ok (none : Option JsonVal)) with
  | error e => rw [hq1] at h; exact absurd h (by simp)
  | ok popt =>
  rw [hq1] at h
  dsimp only [] at h
  cases popt with
  | none => exact absurd h (by simp)
  | some pol =>
  dsimp only [] at h
  cases hcont : pyContains "CallerReference" pol with
  | error e => rw [hcont] at h; exact absurd h (by simp)
  | ok b =>
  rw [hcont] at h
  cases b with
  | false => exact absurd h (by simp)
  | true =>
  dsimp only [] at h
  cases hidx : pyIndex pol "CallerReference" with
  | error e => rw [hidx] at h; exact absurd h (by simp)
  | ok cr =>
  rw [hidx] at h
  dsimp only [] at h
  cases hgc : get_config_method p.type with
  | none => rw [hgc] at h; exact absurd h (by simp)
  | some g =>
  rw [hgc] at h
  dsimp only [] at h
  rcases hg : g env p with ⟨rg, t0⟩
  rw [hg] at h
  cases rg with
  | error e => exact absurd h (by simp)
  | ok existing =>
  dsimp only [] at h
  have ht0 : hasWrite t0 = false := by
    have hx := get_config_method_no_write env p p.type g hgc
    rw [hg] at hx
    exact hx
  rcases hloop : creationLoop env p pol cr existing false false none with ⟨rl, t1⟩
  rw [hloop] at h
  cases rl with
  | error e => exact absurd h (by simp)
  | ok trip =>
  rcases trip with ⟨changed, cre, results⟩
  dsimp only [] at h
  by_cases hcre : (!cre) = true
  · rw [if_pos hcre] at h
    rcases hc2 : creation env p pol with ⟨rc, t2⟩
    rw [hc2] at h
    cases rc with
    | error e => exact absurd h (by simp)
    | ok pr =>
      rcases pr with ⟨ch2, res2⟩
      obtain ⟨hch2, hwt2⟩ := creation_ok env p pol ch2 res2 t2 hc2
      dsimp only [] at h
      injection h with h1 h2
      injection h1 with h3
      injection h3 with h4 h5
      subst h4
      rw [← h2]
      simp [hasWrite_append, hwt2, hch2]
  · rw [if_neg hcre] at h
    cases results with
    | none => exact absurd h (by simp)
    | some v =>
      dsimp only [] at h
      injection h with h1 h2
      injection h1 with h3
      injection h3 with h4 h5
      subst h4
      rw [← h2]
      have hiff := creationLoop_changed env p pol cr existing false false none changed cre
        (some v) t1 hloop
      rw [hasWrite_append, ht0]
      simp only [Bool.false_or]
      simpa using hiff

lemma removal_setup_changed (env : Env) (p : ModuleParams) (ch : Bool) (res : JsonVal)
    (tr : List Event) (h : removal_setup env p = (Except.ok (ch, res), tr)) :
    ch = true ∧ hasWrite tr = true := by
  unfold removal_setup at h
  by_cases h1 : (p.type == "invalidation") = true
  · rw [if_pos h1] at h
    exact absurd h (by simp)
  · rw [if_neg h1] at h
    by_cases h2 : (!(optTruthy p.resource_id)) = true
    · rw [if_pos h2] at h
      exact absurd h (by simp)
    · rw [if_neg h2] at h
      have hstage2 : ∀ (config : JsonVal) (tc : List Event),
          (match removal_config_invocation p.type with
            | none => ((Except.error (ModuleFailure.pyError "KeyError: type") :
                Except ModuleFailure (Bool × JsonVal)), tc)
            | some (_, config_param) =>
              match pyIndex config config_param with
              | .error e => (.error e, tc)
              | .ok cfg =>
                match pyIndex cfg "Enabled" with
                | .error e => (.error e, tc)
                | .ok enabled =>
                  if !(pyTruthy enabled) then
                    match pyIndex config "ETag" with
                    | .error e => (.error e, tc)
                    | .ok etagv =>
                      match removal env p (optStrVal p.resource_id) etagv with
                      | (.error e, t2) => (.error e, tc ++ t2)
                      | (.ok (chR, result), t2) => (.ok (chR, result), tc ++ t2)
                  else
                    (.error (.failJson "Resource must be disabled before you can remove it from AWS"), tc)) =
            (Except.ok (ch, res), tr) →
          ch = true ∧ hasWrite tr = true := by
        intro config tc hx
        cases hri : removal_config_invocation p.type with
        | none => rw [hri] at hx; exact absurd hx (by simp)
        | some pr =>
          rcases pr with ⟨m2, cp2⟩
          rw [hri] at hx
          dsimp only [] at hx
          cases hpc : pyIndex config cp2 with
          | error e => rw [hpc] at hx; exact absurd hx (by simp)
          | ok cfg =>
          rw [hpc] at hx
          dsimp only [] at hx
          cases hpe : pyIndex cfg "Enabled" with
          | error e => rw [hpe] at hx; exact absurd hx (by simp)
          | ok enabled =>
          rw [hpe] at hx
          dsimp only [] at hx
          by_cases htru : (!(pyTruthy enabled)) = true
          · rw [if_pos htru] at hx
            cases het : pyIndex config "ETag" with
            | error e => rw [het] at hx; exact absurd hx (by simp)
            | ok etagv =>
            rw [het] at hx
            dsimp only [] at hx
            rcases hrem : removal env p (optStrVal p.resource_id) etagv with ⟨rr, t2⟩
            rw [hrem] at hx
            cases rr with
            | error e => exact absurd hx (by simp)
            | ok pr2 =>
              rcases pr2 with ⟨chR, resR⟩
              obtain ⟨hchR, hwR⟩ := removal_ok env p (optStrVal p.resource_id) etagv chR resR t2 hrem
              dsimp only [] at hx
              injection hx with hx1 hx2
              injection hx1 with hx3
              injection hx3 with hx4 hx5
              subst hx4
              refine ⟨hchR, ?_⟩
              rw [← hx2, hasWrite_append, hwR]
              simp
          · rw [if_neg htru] at hx
            exact absurd hx (by simp)
      by_cases hw : p.wait_for_deployed = true
      · rw [if_pos hw] at h
        rcases hd : disable_distribution env p with ⟨rd, td⟩
        rw [hd] at h
        cases rd with
        | error e => exact absurd h (by simp)
        | ok pr =>
          rcases pr with ⟨b0, config⟩
          dsimp only [] at h
          exact hstage2 config td h
      · rw [if_neg hw] at h
        cases hri0 : removal_config_invocation p.type with
        | none => rw [hri0] at h; exact absurd h (by simp)
        | some pr0 =>
          rcases pr0 with ⟨m0, cp0⟩
          rw [hri0] at h
          dsimp only [] at h
          exact hstage2 (env.apiResult m0 [("Id", optStrVal p.resource_id)])
            [Event.api m0 [("Id", optStrVal p.resource_id)]]
            (by rw [hri0]; dsimp only []; exact h)

/-- C8: whenever the module exits normally, the `changed` flag it returns is
`True` exactly when the trace of the invocation contains a create, update or
delete API call: `creation`, `update` and `removal` all return
`changed=True` having issued one, and the idempotent match path returns
`changed=False` having issued none. -/
theorem c8_changed_iff_write (env : Env) (p : ModuleParams) (ch : Bool) (res : JsonVal)
    (tr : List Event) (h : runModule env p = (Except.ok (ch, res), tr)) :
    (ch = true ↔ hasWrite tr = true) := by
  unfold runModule at h
  by_cases hs : (pyLower p.state == "present") = true
  · rw [if_pos hs] at h
    exact creation_setup_changed env p ch res tr h
  · rw [if_neg hs] at h
    obtain ⟨h1, h2⟩ := removal_setup_changed env p ch res tr h
    simp [h1, h2]

/-- Control plane with no origin-access identities; `POLICY8` parses to a
policy with caller reference `cr-8`. -/
def envW8 : Env :=
  ⟨fun _ => Except.error "No such file or directory",
   fun s =>
     if s == "POLICY8" then Except.ok (JsonVal.obj [("CallerReference", JsonVal.str "cr-8")])
     else Except.error "No JSON object could be decoded",
   fun m _ =>
     if m == "list_cloud_front_origin_access_identities" then
       .obj [("CloudFrontOriginAccessIdentityList", .obj [])]
     else .obj [],
   fun _ _ _ => JsonVal.null⟩

/-- `type=origin_access_id, state=present`. -/
def pW8 : ModuleParams := ⟨"origin_access_id", some "POLICY8", none, "present", false⟩

theorem c8_witness :
    (true = true ↔ hasWrite
      [Event.api "list_cloud_front_origin_access_identities" [],
       Event.api "create_cloud_front_origin_access_identity"
         [("CloudFrontOriginAccessIdentityConfig",
           JsonVal.obj [("CallerReference", JsonVal.str "cr-8")])]] = true) :=
  c8_changed_iff_write envW8 pW8 true (JsonVal.obj []) _ rfl

/-! ## C5 -/

lemma creationLoop_invalidation_fail (env : Env) (p : ModuleParams) (pol cr : JsonVal)
    (hty : p.type = "invalidation") :
    ∀ (items : List Resource) (ch ex : Bool) (res : Option JsonVal),
      (∀ it ∈ items, ∃ v, pyIndex it.Config "CallerReference" = Except.ok v) →
      (∃ it ∈ items, ∃ v, pyIndex it.Config "CallerReference" = Except.ok v ∧
        jsonBeq cr v = true ∧ jsonBeq pol it.Config = false) →
      ∃ t, creationLoop env p pol cr items ch ex res =
          (Except.error (.failJson msgInvalidationUpdate), t) ∧ hasWrite t = false := by
  intro items
  induction items with
  | nil =>
    intro ch ex res hwf hex
    rcases hex with ⟨it, hmem, _⟩
    exact absurd hmem (List.not_mem_nil it)
  | cons it rest ih =>
    intro ch ex res hwf hex
    obtain ⟨v, hv⟩ := hwf it (List.mem_cons_self it rest)
    unfold creationLoop
    rw [hv]
    dsimp only []
    by_cases hm1 : jsonBeq cr v = true
    · rw [if_pos hm1]
      by_cases hm2 : jsonBeq pol it.Config = true
      · rw [if_pos hm2]
        have hdet : return_resource_details env p it =
            (Except.ok (env.apiResult "get_invalidation"
              [("DistributionId", optStrVal p.resource_id), ("Id", it.Id)]),
             [Event.api "get_invalidation"
              [("DistributionId", optStrVal p.resource_id), ("Id", it.Id)]]) := by
          unfold return_resource_details
          rw [hty]
          rfl
        rw [hdet]
        dsimp only []
        have hex2 : ∃ it2 ∈ rest, ∃ v2, pyIndex it2.Config "CallerReference" = Except.ok v2 ∧
            jsonBeq cr v2 = true ∧ jsonBeq pol it2.Config = false := by
          rcases hex with ⟨it2, hmem, v2, hv2, hcr2, hne2⟩
          rcases List.mem_cons.mp hmem with heq2 | hmem2
          · subst heq2
            rw [hm2] at hne2
            exact absurd hne2 (by simp)
          · exact ⟨it2, hmem2, v2, hv2, hcr2, hne2⟩
        obtain ⟨t2, hrec, hw2⟩ := ih ch true
          (some (env.apiResult "get_invalidation"
            [("DistributionId", optStrVal p.resource_id), ("Id", it.Id)]))
          (fun j hj => hwf j (List.mem_cons_of_mem _ hj)) hex2
        refine ⟨[Event.api "get_invalidation"
            [("DistributionId", optStrVal p.resource_id), ("Id", it.Id)]] ++ t2, ?_, ?_⟩
        · unfold withTrace
          rw [hrec]
        · rw [hasWrite_append, hw2]
          have : hasWrite [Event.api "get_invalidation"
              [("DistributionId", optStrVal p.resource_id), ("Id", it.Id)]] = false := by
            simp [hasWrite, isWriteEvent]
            decide
          rw [this]
          rfl
      · rw [if_neg hm2]
        rw [if_pos (show (p.type == "invalidation") = true by rw [hty]; rfl)]
        exact ⟨[], rfl, rfl⟩
    · rw [if_neg hm1]
      have hex2 : ∃ it2 ∈ rest, ∃ v2, pyIndex it2.Config "CallerReference" = Except.ok v2 ∧
          jsonBeq cr v2 = true ∧ jsonBeq pol it2.Config = false := by
        rcases hex with ⟨it2, hmem, v2, hv2, hcr2, hne2⟩
        rcases List.mem_cons.mp hmem with heq2 | hmem2
        · subst heq2
          rw [hv] at hv2
          injection hv2 with hvv
          rw [← hvv] at hcr2
          exact absurd hcr2 hm1
        · exact ⟨it2, hmem2, v2, hv2, hcr2, hne2⟩
      exact ih ch ex res (fun j hj => hwf j (List.mem_cons_of_mem _ hj)) hex2

/-- C5: invalidations can be neither updated nor removed: with
`state=present` and an existing invalidation sharing the policy's
`CallerReference` but holding a different config, the module fails with the
no-update message and its trace holds no create, update or delete call; with
`state=absent` it fails immediately with the no-removal message and an empty
trace. -/
theorem c5_invalidation_unsupported (env : Env) (p : ModuleParams) (s : String)
    (pol cr : JsonVal) (existing : List Resource) (t0 : List Event) :
    (p.type = "invalidation" → p.state = "present" → p.policy = some s → s ≠ "" →
      parsePolicy env s = Except.ok pol →
      pyContains "CallerReference" pol = Except.ok true →
      pyIndex pol "CallerReference" = Except.ok cr →
      get_existing_invalidations env p = (Except.ok existing, t0) →
      (∀ it ∈ existing, ∃ v, pyIndex it.Config "CallerReference" = Except.ok v) →
      (∃ it ∈ existing, ∃ v, pyIndex it.Config "CallerReference" = Except.ok v ∧
        jsonBeq cr v = true ∧ jsonBeq pol it.Config = false) →
      (runModule env p).1 = Except.error (.failJson msgInvalidationUpdate)
        ∧ hasWrite (runModule env p).2 = false)
    ∧ (p.type = "invalidation" → p.state = "absent" →
      runModule env p =
        (Except.error (.failJson "Invalidations cannot be updated or removed"), [])) := by
  constructor
  · intro hty hstate hpol hne hparse hcont hidx hexist hwf hex
    rw [runModule_present env p hstate]
    unfold creation_setup
    rw [hpol]
    rw [if_pos (show optTruthy (some s) = true by simp [optTruthy, hne])]
    dsimp only []
    rw [hparse]
    dsimp only [Except.map]
    rw [hcont]
    dsimp only []
    rw [hidx]
    dsimp only []
    rw [hty]
    rw [show get_config_method "invalidation" = some get_existing_invalidations from rfl]
    dsimp only []
    rw [hexist]
    dsimp only []
    obtain ⟨t1, hloop, hw1⟩ :=
      creationLoop_invalidation_fail env p pol cr hty existing false false none hwf hex
    rw [hloop]
    dsimp only []
    have ht0 : hasWrite t0 = false := by
      have hx := get_existing_invalidations_no_write env p
      rw [hexist] at hx
      exact hx
    refine ⟨rfl, ?_⟩
    rw [hasWrite_append, ht0, hw1]
    rfl
  · intro hty hstate
    rw [runModule_absent env p hstate]
    unfold removal_setup
    rw [if_pos (show (p.type == "invalidation") = true by rw [hty]; rfl)]

/-- Control plane with one invalidation `I5` for distribution `D5`, whose
batch config differs from the submitted `POLICY5`. -/
def envW5 : Env :=
  ⟨fun _ => Except.error "No such file or directory",
   fun s =>
     if s == "POLICY5" then
       Except.ok (JsonVal.obj [("CallerReference", JsonVal.str "cr-5"), ("Paths", JsonVal.str "/new")])
     else Except.error "No JSON object could be decoded",
   fun m _ =>
     if m == "list_invalidations" then
       .obj [("InvalidationList", .obj [("Items", .arr [.obj [("Id", .str "I5")]])])]
     else if m == "get_invalidation" then
       .obj [("Invalidation", .obj [("InvalidationBatch",
         .obj [("CallerReference", .str "cr-5"), ("Paths", .str "/old")])])]
     else .obj [],
   fun _ _ _ => JsonVal.null⟩

/-- `type=invalidation` against distribution `D5`. -/
def pW5 : ModuleParams := ⟨"invalidation", some "POLICY5", some "D5", "present", false⟩

/-- `type=invalidation, state=absent`. -/
def pW5b : ModuleParams := ⟨"invalidation", none, some "D5", "absent", false⟩

theorem c5_witness :
    ((runModule envW5 pW5).1 = Except.error (.failJson msgInvalidationUpdate)
      ∧ hasWrite (runModule envW5 pW5).2 = false)
    ∧ runModule envW5 pW5b =
        (Except.error (.failJson "Invalidations cannot be updated or removed"), []) := by
  constructor
  · exact (c5_invalidation_unsupported envW5 pW5 "POLICY5"
      (JsonVal.obj [("CallerReference", JsonVal.str "cr-5"), ("Paths", JsonVal.str "/new")])
      (JsonVal.str "cr-5")
      [⟨JsonVal.obj [("CallerReference", JsonVal.str "cr-5"), ("Paths", JsonVal.str "/old")],
        JsonVal.str "", JsonVal.str "I5", none⟩]
      [Event.api "list_invalidations" [("DistributionId", JsonVal.str "D5")],
       Event.api "get_invalidation" [("DistributionId", JsonVal.str "D5"), ("Id", JsonVal.str "I5")]]).1
      rfl rfl rfl (by decide) rfl rfl rfl rfl
      (by
        intro it hmem
        rcases List.mem_cons.mp hmem with heq | hmem2
        · subst heq
          exact ⟨JsonVal.str "cr-5", rfl⟩
        · exact absurd hmem2 (List.not_mem_nil it))
      ⟨⟨JsonVal.obj [("CallerReference", JsonVal.str "cr-5"), ("Paths", JsonVal.str "/old")],
        JsonVal.str "", JsonVal.str "I5", none⟩,
       List.mem_cons_self _ _, JsonVal.str "cr-5", rfl, rfl, rfl⟩
  · exact (c5_invalidation_unsupported envW5 pW5b "POLICY5"
      JsonVal.null JsonVal.null [] []).2 rfl rfl

/-! ## C2 -/

lemma creationLoop_skip_append (env : Env) (p : ModuleParams) (pol cr : JsonVal)
    (pre rest : List Resource) (ch ex : Bool) (res : Option JsonVal)
    (h : ∀ j ∈ pre, ∃ v, pyIndex j.Config "CallerReference" = Except.ok v ∧ jsonBeq cr v = false) :
    creationLoop env p pol cr (pre ++ rest) ch ex res =
      creationLoop env p pol cr rest ch ex res := by
  induction pre with
  | nil => rfl
  | cons j pre2 ih =>
    obtain ⟨v, hv, hne⟩ := h j (List.mem_cons_self j pre2)
    show creationLoop env p pol cr (j :: (pre2 ++ rest)) ch ex res = _
    conv_lhs => unfold creationLoop
    rw [hv]
    dsimp only []
    rw [if_neg (show ¬(jsonBeq cr v = true) by simp [hne])]
    exact ih (fun j2 hj => h j2 (List.mem_cons_of_mem _ hj))

/-- C2: with `state=present`, when the (unique) existing resource carrying
the policy's `CallerReference` has a config equal to the policy under the
`cmp`-equality, the module issues no create, update or delete call, returns
`changed=False`, and returns the details fetched for exactly that existing
resource. -/
theorem c2_idempotent_no_write (env : Env) (p : ModuleParams) (s : String)
    (pol cr crv : JsonVal) (g : Env → ModuleParams → M (List Resource))
    (pre post : List Resource) (it : Resource) (t0 : List Event)
    (hstate : p.state = "present") (hpol : p.policy = some s) (hne : s ≠ "")
    (hparse : parsePolicy env s = Except.ok pol)
    (hcont : pyContains "CallerReference" pol = Except.ok true)
    (hidx : pyIndex pol "CallerReference" = Except.ok cr)
    (hgc : get_config_method p.type = some g)
    (hg : g env p = (Except.ok (pre ++ it :: post), t0))
    (hpre : ∀ j ∈ pre, ∃ v, pyIndex j.Config "CallerReference" = Except.ok v ∧ jsonBeq cr v = false)
    (hpost : ∀ j ∈ post, ∃ v, pyIndex j.Config "CallerReference" = Except.ok v ∧ jsonBeq cr v = false)
    (hit : pyIndex it.Config "CallerReference" = Except.ok crv)
    (hcrv : jsonBeq cr crv = true)
    (hcfg : jsonBeq pol it.Config = true) :
    ∃ d td, return_resource_details env p it = (Except.ok d, td)
      ∧ runModule env p = (Except.ok (false, d), t0 ++ td)
      ∧ hasWrite (t0 ++ td) = false := by
  have hdi : ∃ m, details_invocation p.type = some m := by
    unfold get_config_method at hgc
    unfold details_invocation
    split_ifs at hgc ⊢ <;> first | exact ⟨_, rfl⟩ | simp at hgc
  obtain ⟨dm, hdm⟩ := hdi
  have hdet : ∃ d td, return_resource_details env p it = (Except.ok d, td) := by
    unfold return_resource_details
    rw [hdm]
    dsimp only []
    by_cases hti : (p.type == "invalidation") = true
    · rw [if_pos hti]
      exact ⟨_, _, rfl⟩
    · rw [if_neg hti]
      exact ⟨_, _, rfl⟩
  obtain ⟨d, td, hdet2⟩ := hdet
  have htd : hasWrite td = false := by
    have hx := return_resource_details_no_write env p it
    rw [hdet2] at hx
    exact hx
  have hloop : creationLoop env p pol cr (pre ++ it :: post) false false none =
      (Except.ok (false, true, some d), td) := by
    rw [creationLoop_skip_append env p pol cr pre (it :: post) false false none hpre]
    unfold creationLoop
    rw [hit]
    dsimp only []
    rw [if_pos hcrv]
    rw [if_pos hcfg]
    rw [hdet2]
    dsimp only []
    unfold withTrace
    rw [creationLoop_skip env p pol cr post false true (some d) hpost]
    simp
  have ht0 : hasWrite t0 = false := by
    have hx := get_config_method_no_write env p p.type g hgc
    rw [hg] at hx
    exact hx
  refine ⟨d, td, hdet2, ?_, ?_⟩
  · rw [runModule_present env p hstate]
    unfold creation_setup
    rw [hpol]
    rw [if_pos (show optTruthy (some s) = true by simp [optTruthy, hne])]
    dsimp only []
    rw [hparse]
    dsimp only [Except.map]
    rw [hcont]
    dsimp only []
    rw [hidx]
    dsimp only []
    rw [hgc]
    dsimp only []
    rw [hg]
    dsimp only []
    rw [hloop]
    dsimp only []
    rw [if_neg (by decide : ¬((!true) = true))]
  · rw [hasWrite_append, ht0, htd]
    rfl

/-- Control plane with one distribution `D2` whose config equals the
submitted `POLICY2`. -/
def envW2 : Env :=
  ⟨fun _ => Except.error "No such file or directory",
   fun s =>
     if s == "POLICY2" then
       Except.ok (JsonVal.obj [("CallerReference", JsonVal.str "cr-2"), ("Enabled", JsonVal.bool false)])
     else Except.error "No JSON object could be decoded",
   fun m _ =>
     if m == "list_distributions" then
       .obj [("DistributionList", .obj [("Items",
         .arr [.obj [("Id", .str "D2"), ("DomainName", .str "d2.cloudfront.net")]])])]
     else if m == "get_distribution_config" then
       .obj [("DistributionConfig",
         .obj [("CallerReference", .str "cr-2"), ("Enabled", .bool false)]), ("ETag", .str "E2")]
     else if m == "get_distribution" then
       .obj [("Distribution", .obj [("Id", .str "D2"), ("Status", .str "Deployed")])]
     else .obj [],
   fun _ _ _ => JsonVal.null⟩

/-- `type=distribution, state=present`, policy equal to the existing config. -/
def pW2 : ModuleParams := ⟨"distribution", some "POLICY2", none, "present", false⟩

theorem c2_witness :
    ∃ d td, return_resource_details envW2 pW2
        ⟨JsonVal.obj [("CallerReference", JsonVal.str "cr-2"), ("Enabled", JsonVal.bool false)],
         JsonVal.str "E2", JsonVal.str "D2", some (JsonVal.str "d2.cloudfront.net")⟩ =
        (Except.ok d, td)
      ∧ runModule envW2 pW2 = (Except.ok (false, d),
          [Event.api "list_distributions" [],
           Event.api "get_distribution_config" [("Id", JsonVal.str "D2")]] ++ td)
      ∧ hasWrite ([Event.api "list_distributions" [],
          Event.api "get_distribution_config" [("Id", JsonVal.str "D2")]] ++ td) = false :=
  c2_idempotent_no_write envW2 pW2 "POLICY2"
    (JsonVal.obj [("CallerReference", JsonVal.str "cr-2"), ("Enabled", JsonVal.bool false)])
    (JsonVal.str "cr-2") (JsonVal.str "cr-2")
    get_existing_distributions [] []
    ⟨JsonVal.obj [("CallerReference", JsonVal.str "cr-2"), ("Enabled", JsonVal.bool false)],
     JsonVal.str "E2", JsonVal.str "D2", some (JsonVal.str "d2.cloudfront.net")⟩
    [Event.api "list_distributions" [],
     Event.api "get_distribution_config" [("Id", JsonVal.str "D2")]]
    rfl rfl (by decide) rfl rfl rfl rfl rfl
    (fun j hj => absurd hj (List.not_mem_nil j))
    (fun j hj => absurd hj (List.not_mem_nil j))
    rfl rfl rfl

end Cloudfront
